import Mathlib

/-!
A shallow embedding of `friend_app.py` (Friend Recommendation System).

The backing sqlite store is modelled as a `Store` value holding the three
tables (`users`, `interests`, `friends`) as row lists.  The networkx
`nx.Graph` snapshot is modelled as a `Graph`: an insertion-ordered
duplicate-free node list plus a list of undirected edges, each distinct
unordered pair stored once (as networkx does).  Node attributes
(name/email) set by `_build_graph` are not modelled because no engine
operation ever reads them back from the graph: the engine re-reads user
rows from the store via `get_user`.

Python `float` arithmetic is modelled by exact rationals `ℚ`; the scores
involved are ratios of small integers.  Exceptions are modelled with
`Except`: networkx's error on `graph.neighbors` of an unknown node is
`EngineError.UnknownNodeError`, and the `TypeError` that would arise from
subscripting the `None` returned by `get_user` for a missing row is
`EngineError.missingUserRow`.
-/

namespace FriendApp

/-- A row of the `users` table (`id`, `name`, `email`). -/
structure StoreUser where
  id : Nat
  name : String
  email : String
deriving DecidableEq

/-- The backing store: the three sqlite tables as row lists.
`interests` rows are `(user_id, interest)`, `friends` rows are
`(user_id, friend_id)`. -/
structure Store where
  users : List StoreUser
  interests : List (Nat × String)
  friends : List (Nat × Nat)
deriving DecidableEq

/-- `User.get_user`: `SELECT * FROM users WHERE id = ?`, first match or `None`. -/
def get_user (st : Store) (uid : Nat) : Option StoreUser :=
  st.users.find? (fun u => u.id = uid)

/-- `User.get_user_interests`: the set of interests stored for `uid`
(`SELECT interest FROM interests WHERE user_id = ?`, collected into a set). -/
def get_user_interests (st : Store) (uid : Nat) : Finset String :=
  ((st.interests.filter (fun r => r.1 = uid)).map (fun r => r.2)).toFinset

/-- The networkx `nx.Graph` snapshot: insertion-ordered node list (no
duplicates) and one stored entry per distinct undirected edge. -/
structure Graph where
  nodes : List Nat
  edges : List (Nat × Nat)
deriving DecidableEq

/-- `graph.add_node u`: appends `u` to the node order unless already present. -/
def addNode (g : Graph) (u : Nat) : Graph :=
  if u ∈ g.nodes then g else { g with nodes := g.nodes ++ [u] }

/-- Whether the undirected edge `{a, b}` is present in the graph. -/
def hasEdge (g : Graph) (a b : Nat) : Bool :=
  g.edges.any (fun e => e = (a, b) || e = (b, a))

/-- `graph.add_edge a b`: adds missing endpoints as nodes (in argument
order), then records the undirected edge once if it is new. -/
def addEdge (g : Graph) (a b : Nat) : Graph :=
  let g1 := addNode (addNode g a) b
  if hasEdge g1 a b then g1 else { g1 with edges := g1.edges ++ [(a, b)] }

/-- `RecommendationEngine._build_graph`: one node per row of the full user
scan, then one `add_edge` per row of the full `friends` scan. -/
def buildGraph (st : Store) : Graph :=
  let g0 := st.users.foldl (fun g u => addNode g u.id) ⟨[], []⟩
  st.friends.foldl (fun g e => addEdge g e.1 e.2) g0

/-- `set(self.graph.neighbors(u))`: all nodes sharing an edge with `u`. -/
def neighborsSet (g : Graph) (u : Nat) : Finset Nat :=
  (g.edges.filterMap (fun e =>
    if e.1 = u then some e.2 else if e.2 = u then some e.1 else none)).toFinset

/-- `RecommendationEngine.jaccard_similarity`:
`len(a & b) / len(a | b) if a or b else 0.0`. -/
def jaccard_similarity {α : Type} [DecidableEq α] (a b : Finset α) : ℚ :=
  if a = ∅ ∧ b = ∅ then 0 else ((a ∩ b).card : ℚ) / ((a ∪ b).card : ℚ)

/-- The dictionary returned by `calculate_user_similarity`. -/
structure SimilarityResult where
  interest_similarity : ℚ
  mutual_friends_similarity : ℚ
  combined_score : ℚ
  common_interests : Finset String
  mutual_friends_count : Nat
deriving DecidableEq

/-- Failures of the engine: networkx's unknown-node error on
`graph.neighbors`, and the `TypeError` from using a `None` user row. -/
inductive EngineError where
  | UnknownNodeError (uid : Nat)
  | missingUserRow (uid : Nat)
deriving DecidableEq

/-- The similarity dictionary for two users both present in the snapshot
(the straight-line body of `calculate_user_similarity`). -/
def simOf (g : Graph) (st : Store) (u1 u2 : Nat) : SimilarityResult :=
  let interests1 := get_user_interests st u1
  let interests2 := get_user_interests st u2
  let friends1 := neighborsSet g u1
  let friends2 := neighborsSet g u2
  let interest_sim := jaccard_similarity interests1 interests2
  let mutual_sim := jaccard_similarity friends1 friends2
  { interest_similarity := interest_sim
    mutual_friends_similarity := mutual_sim
    combined_score := (6 / 10 : ℚ) * mutual_sim + (4 / 10 : ℚ) * interest_sim
    common_interests := interests1 ∩ interests2
    mutual_friends_count := (friends1 ∩ friends2).card }

/-- `RecommendationEngine.calculate_user_similarity`: interests are
re-read from the backing store; neighbor sets come from the snapshot, and
`graph.neighbors` raises (first on `u1`, then on `u2`) when the user is
not a node of the snapshot. -/
def calculate_user_similarity (g : Graph) (st : Store) (u1 u2 : Nat) :
    Except EngineError SimilarityResult :=
  if u1 ∈ g.nodes then
    if u2 ∈ g.nodes then .ok (simOf g st u1 u2)
    else .error (.UnknownNodeError u2)
  else .error (.UnknownNodeError u1)

/-- One entry of the recommendation list built by
`get_friend_recommendations`. -/
structure RecommendationEntry where
  user_id : Nat
  name : String
  email : String
  similarity_score : ℚ
  common_interests : Finset String
  mutual_friends_count : Nat
  interest_similarity : ℚ
  mutual_friends_similarity : ℚ
deriving DecidableEq

/-- `candidates = set(self.graph.nodes) - current_friends - {user_id}`,
kept in node insertion order (Python iterates the set in unspecified
order; every property proved below is order-insensitive). -/
def candidates (g : Graph) (u : Nat) : List Nat :=
  g.nodes.filter (fun c => decide (c ∉ neighborsSet g u ∧ c ≠ u))

/-- The recommendation entry assembled for candidate `c` (fields from the
similarity dictionary plus `name`/`email` re-read from the store). -/
def entryOf (g : Graph) (st : Store) (u c : Nat) : RecommendationEntry :=
  let sim := simOf g st u c
  let usr := (get_user st c).getD ⟨0, "", ""⟩
  { user_id := c
    name := usr.name
    email := usr.email
    similarity_score := sim.combined_score
    common_interests := sim.common_interests
    mutual_friends_count := sim.mutual_friends_count
    interest_similarity := sim.interest_similarity
    mutual_friends_similarity := sim.mutual_friends_similarity }

/-- The candidate loop of `get_friend_recommendations`: score each
candidate, keep those with strictly positive combined score, read the
user row for each kept candidate. -/
def buildRecs (g : Graph) (st : Store) (u : Nat) :
    List Nat → Except EngineError (List RecommendationEntry)
  | [] => .ok []
  | c :: rest =>
    match calculate_user_similarity g st u c with
    | .error e => .error e
    | .ok sim =>
      if 0 < sim.combined_score then
        match get_user st c with
        | none => .error (.missingUserRow c)
        | some _ =>
          match buildRecs g st u rest with
          | .error e => .error e
          | .ok tail => .ok (entryOf g st u c :: tail)
      else buildRecs g st u rest

/-- Python's `l[:limit]` for an `int` limit: a non-negative limit keeps at
most `limit` leading elements; a negative limit drops the last `|limit|`
elements. -/
def pyTake (limit : Int) (l : List α) : List α :=
  if 0 ≤ limit then l.take limit.toNat
  else l.take ((l.length : Int) + limit).toNat

/-- The descending-score comparison handed to `sorted(..., reverse=True)`. -/
def scoreGe (a b : RecommendationEntry) : Bool :=
  decide (b.similarity_score ≤ a.similarity_score)

/-- `RecommendationEngine.get_friend_recommendations`: candidates are the
snapshot's nodes minus the queried user's neighbors minus the user; kept
entries are sorted by combined score descending and sliced to `limit`.
`graph.neighbors(user_id)` raises when `user_id` is not a node. -/
def get_friend_recommendations (g : Graph) (st : Store) (user_id : Nat)
    (limit : Int) : Except EngineError (List RecommendationEntry) :=
  if user_id ∈ g.nodes then
    match buildRecs g st user_id (candidates g user_id) with
    | .error e => .error e
    | .ok recs => .ok (pyTake limit (recs.mergeSort scoreGe))
  else .error (.UnknownNodeError user_id)

/-- Largest user id in the `users` table (`0` when empty); sqlite's
AUTOINCREMENT hands out `maxUserId + 1` next. -/
def maxUserId (st : Store) : Nat :=
  st.users.foldl (fun m u => max m u.id) 0

/-- The interest-insertion loop of `create_user`: each interest is
trimmed and lower-cased; a row already present (UNIQUE constraint) is
skipped via `IntegrityError`/`continue`. -/
def insertInterests (uid : Nat) (s : Store) (ints : List String) : Store :=
  ints.foldl (fun s i =>
    let v := i.trim.toLower
    if (uid, v) ∈ s.interests then s
    else { s with interests := s.interests ++ [(uid, v)] }) s

/-- The friend-insertion loop of `create_user`: a friend id is processed
only if it exists in `users`; the edge is inserted in both directions,
and the first duplicate row abandons the rest of the pair. -/
def insertFriendPairs (uid : Nat) (s : Store) (fids : List Nat) : Store :=
  fids.foldl (fun s fid =>
    if s.users.any (fun u => u.id = fid) then
      if (uid, fid) ∈ s.friends then s
      else
        let s1 : Store := { s with friends := s.friends ++ [(uid, fid)] }
        if (fid, uid) ∈ s1.friends then s1
        else { s1 with friends := s1.friends ++ [(fid, uid)] }
    else s) s

/-- `User.create_user`: inserts the user row (a duplicate email violates
the UNIQUE constraint, rolling the whole transaction back to `None`,
leaving the store unchanged), then runs the interest and friend loops. -/
def create_user (st : Store) (name email : String) (interests : List String)
    (friend_ids : List Nat) : Store × Option Nat :=
  if st.users.any (fun u => u.email = email) then (st, none)
  else
    let uid := maxUserId st + 1
    let st1 : Store := { st with users := st.users ++ [⟨uid, name, email⟩] }
    (insertFriendPairs uid (insertInterests uid st1 interests) friend_ids, some uid)

/-- A sequence of `create_user` writes applied to the store (the graph
snapshot is not an input: `create_user` never touches it). -/
def applyCreates (st : Store) :
    List (String × String × List String × List Nat) → Store
  | [] => st
  | c :: cs => applyCreates (create_user st c.1 c.2.1 c.2.2.1 c.2.2.2).1 cs

/-- Store well-formedness from the spec's data model: every `friends` row
references ids present in the `users` table. -/
def edgesClosed (st : Store) : Bool :=
  st.friends.all (fun e =>
    st.users.any (fun u => u.id = e.1) && st.users.any (fun u => u.id = e.2))

/-- No two stored edge entries denote the same unordered pair. -/
def edgesDupFree (g : Graph) : Prop :=
  g.edges.Pairwise (fun e f => ¬(e = f ∨ e = (f.2, f.1)))

/-- The scored-and-kept candidate list (positively scored candidates in
snapshot node order, as assembled by the loop before sorting/slicing). -/
def keptEntries (g : Graph) (st : Store) (u : Nat) : List RecommendationEntry :=
  ((candidates g u).filter
    (fun c => decide (0 < (simOf g st u c).combined_score))).map (entryOf g st u)

/-- Concrete store for the spec's interest scenario: users 1, 2, 3 with
interest sets `{a, b}`, `{a, c}`, `{a, b}` and no friend edges. -/
def stInterests : Store :=
  ⟨[⟨1, "u1", "e1"⟩, ⟨2, "u2", "e2"⟩, ⟨3, "u3", "e3"⟩],
   [(1, "a"), (1, "b"), (2, "a"), (2, "c"), (3, "a"), (3, "b")], []⟩

/-- Concrete store: two users, no interests, no friends. -/
def stTwo : Store := ⟨[⟨1, "a", "a"⟩, ⟨2, "b", "b"⟩], [], []⟩

/-- Concrete store: users 1 and 2 share the friend 3 (edges stored in
both directions), no interests. -/
def stMutual : Store :=
  ⟨[⟨1, "a", "a"⟩, ⟨2, "b", "b"⟩, ⟨3, "c", "c"⟩], [],
   [(1, 3), (3, 1), (2, 3), (3, 2)]⟩

/-- `stTwo` after two post-build interest writes (`INSERT INTO interests`
rows giving users 1 and 2 the common interest `"t"`). -/
def stTwoLater : Store :=
  ⟨[⟨1, "a", "a"⟩, ⟨2, "b", "b"⟩], [(1, "t"), (2, "t")], []⟩

/-- `stTwo` after a post-build friend-edge write only. -/
def stTwoFriendLater : Store := ⟨[⟨1, "a", "a"⟩, ⟨2, "b", "b"⟩], [], [(1, 2)]⟩

/-! ### Jaccard lemmas -/

theorem jaccard_of_not_both_empty {α : Type} [DecidableEq α] {a b : Finset α}
    (h : ¬(a = ∅ ∧ b = ∅)) :
    jaccard_similarity a b = ((a ∩ b).card : ℚ) / ((a ∪ b).card : ℚ) := by
  simp [jaccard_similarity, h]

theorem union_card_pos {α : Type} [DecidableEq α] {a b : Finset α}
    (h : ¬(a = ∅ ∧ b = ∅)) : 0 < (((a ∪ b).card : ℚ)) := by
  have : (a ∪ b).Nonempty := by
    rcases Decidable.not_and_iff_or_not.mp h with ha | hb
    · exact (Finset.nonempty_iff_ne_empty.mpr ha).mono Finset.subset_union_left
    · exact (Finset.nonempty_iff_ne_empty.mpr hb).mono Finset.subset_union_right
  have hc : 0 < (a ∪ b).card := Finset.card_pos.mpr this
  exact_mod_cast hc

theorem jaccard_nonneg {α : Type} [DecidableEq α] (a b : Finset α) :
    0 ≤ jaccard_similarity a b := by
  by_cases h : a = ∅ ∧ b = ∅
  · simp [jaccard_similarity, h]
  · rw [jaccard_of_not_both_empty h]
    exact div_nonneg (by positivity) (le_of_lt (union_card_pos h))

theorem jaccard_le_one {α : Type} [DecidableEq α] (a b : Finset α) :
    jaccard_similarity a b ≤ 1 := by
  by_cases h : a = ∅ ∧ b = ∅
  · simp [jaccard_similarity, h]
  · rw [jaccard_of_not_both_empty h]
    rw [div_le_one (union_card_pos h)]
    exact_mod_cast Finset.card_le_card Finset.inter_subset_union

theorem jaccard_comm {α : Type} [DecidableEq α] (a b : Finset α) :
    jaccard_similarity a b = jaccard_similarity b a := by
  simp [jaccard_similarity, Finset.inter_comm, Finset.union_comm, and_comm]

theorem jaccard_self {α : Type} [DecidableEq α] {a : Finset α} (h : a.Nonempty) :
    jaccard_similarity a a = 1 := by
  have hne : ¬(a = ∅ ∧ a = ∅) := by
    simp [Finset.nonempty_iff_ne_empty.mp h]
  rw [jaccard_of_not_both_empty hne]
  simp only [Finset.inter_self, Finset.union_self]
  exact div_self (by exact_mod_cast (Finset.card_pos.mpr h).ne')

/-! ### Graph construction lemmas -/

theorem nodes_addNode (g : Graph) (u x : Nat) :
    x ∈ (addNode g u).nodes ↔ x ∈ g.nodes ∨ x = u := by
  unfold addNode
  split
  · constructor
    · exact Or.inl
    · rintro (hx | rfl)
      · exact hx
      · assumption
  · simp

theorem edges_addNode (g : Graph) (u : Nat) : (addNode g u).edges = g.edges := by
  unfold addNode; split <;> rfl

theorem nodup_addNode (g : Graph) (u : Nat) (h : g.nodes.Nodup) :
    (addNode g u).nodes.Nodup := by
  unfold addNode
  split
  · exact h
  · next hu =>
    refine h.append (List.nodup_singleton u) ?_
    intro x hx hxu
    rw [List.mem_singleton] at hxu
    exact hu (hxu ▸ hx)

theorem hasEdge_iff (g : Graph) (a b : Nat) :
    hasEdge g a b = true ↔ (a, b) ∈ g.edges ∨ (b, a) ∈ g.edges := by
  simp only [hasEdge, List.any_eq_true, Bool.or_eq_true, decide_eq_true_eq]
  constructor
  · rintro ⟨e, he, rfl | rfl⟩
    · exact Or.inl he
    · exact Or.inr he
  · rintro (h | h)
    · exact ⟨(a, b), h, Or.inl rfl⟩
    · exact ⟨(b, a), h, Or.inr rfl⟩

theorem addEdge_eq (g : Graph) (a b : Nat) :
    addEdge g a b =
      if hasEdge (addNode (addNode g a) b) a b then addNode (addNode g a) b
      else { addNode (addNode g a) b with
             edges := (addNode (addNode g a) b).edges ++ [(a, b)] } := rfl

theorem nodes_addEdge (g : Graph) (a b x : Nat) :
    x ∈ (addEdge g a b).nodes ↔ x ∈ g.nodes ∨ x = a ∨ x = b := by
  rw [addEdge_eq]
  have hn : ∀ h : Graph, h.nodes = (addNode (addNode g a) b).nodes →
      (x ∈ h.nodes ↔ x ∈ g.nodes ∨ x = a ∨ x = b) := by
    intro h hh
    rw [hh, nodes_addNode, nodes_addNode]
    tauto
  split
  · exact hn _ rfl
  · exact hn _ rfl

theorem edges_mem_addEdge (g : Graph) (a b : Nat) (e : Nat × Nat) :
    e ∈ (addEdge g a b).edges ↔ e ∈ g.edges ∨ (hasEdge g a b = false ∧ e = (a, b)) := by
  rw [addEdge_eq]
  have hE : (addNode (addNode g a) b).edges = g.edges := by
    rw [edges_addNode, edges_addNode]
  have hH : hasEdge (addNode (addNode g a) b) a b = hasEdge g a b := by
    simp [hasEdge, hE]
  split
  · next h =>
    rw [hH] at h
    simp [hE, h]
  · next h =>
    rw [hH] at h
    have hf : hasEdge g a b = false := Bool.eq_false_iff.mpr h
    simp [hE, hf]

theorem hasEdge_addEdge (g : Graph) (a b x y : Nat) :
    hasEdge (addEdge g a b) x y = true ↔
      hasEdge g x y = true ∨ ((x, y) = (a, b) ∨ (x, y) = (b, a)) := by
  rw [hasEdge_iff, hasEdge_iff, edges_mem_addEdge, edges_mem_addEdge]
  constructor
  · rintro ((hx | ⟨_, he⟩) | (hx | ⟨_, he⟩))
    · exact Or.inl (Or.inl hx)
    · exact Or.inr (Or.inl he)
    · exact Or.inl (Or.inr hx)
    · right; right
      obtain ⟨rfl, rfl⟩ : y = a ∧ x = b := by simpa [Prod.ext_iff] using he
      rfl
  · rintro ((hx | hx) | hp | hp)
    · exact Or.inl (Or.inl hx)
    · exact Or.inr (Or.inl hx)
    · obtain ⟨rfl, rfl⟩ : x = a ∧ y = b := by simpa [Prod.ext_iff] using hp
      by_cases h : hasEdge g x y = true
      · rcases (hasEdge_iff g x y).mp h with h1 | h1
        · exact Or.inl (Or.inl h1)
        · exact Or.inr (Or.inl h1)
      · exact Or.inl (Or.inr ⟨Bool.eq_false_iff.mpr h, rfl⟩)
    · obtain ⟨rfl, rfl⟩ : x = b ∧ y = a := by simpa [Prod.ext_iff] using hp
      by_cases h : hasEdge g y x = true
      · rcases (hasEdge_iff g y x).mp h with h1 | h1
        · exact Or.inr (Or.inl h1)
        · exact Or.inl (Or.inl h1)
      · exact Or.inr (Or.inr ⟨Bool.eq_false_iff.mpr h, rfl⟩)

theorem nodup_addEdge (g : Graph) (a b : Nat) (h : g.nodes.Nodup) :
    (addEdge g a b).nodes.Nodup := by
  rw [addEdge_eq]
  have hn : (addNode (addNode g a) b).nodes.Nodup :=
    nodup_addNode _ _ (nodup_addNode _ _ h)
  split
  · exact hn
  · exact hn

/-! ### Fold lemmas for `buildGraph` -/

theorem nodes_foldl_addNode (us : List StoreUser) (g : Graph) (x : Nat) :
    x ∈ (us.foldl (fun g u => addNode g u.id) g).nodes ↔
      x ∈ g.nodes ∨ ∃ u ∈ us, u.id = x := by
  induction us generalizing g with
  | nil => simp
  | cons u us ih =>
    rw [List.foldl_cons, ih, nodes_addNode]
    constructor
    · rintro ((hg | rfl) | hu)
      · exact Or.inl hg
      · exact Or.inr ⟨u, List.mem_cons_self .., rfl⟩
      · rcases hu with ⟨v, hv, rfl⟩
        exact Or.inr ⟨v, List.mem_cons_of_mem _ hv, rfl⟩
    · rintro (hg | ⟨v, hv, rfl⟩)
      · exact Or.inl (Or.inl hg)
      · rcases List.mem_cons.mp hv with rfl | hv
        · exact Or.inl (Or.inr rfl)
        · exact Or.inr ⟨v, hv, rfl⟩

theorem edges_foldl_addNode (us : List StoreUser) (g : Graph) :
    (us.foldl (fun g u => addNode g u.id) g).edges = g.edges := by
  induction us generalizing g with
  | nil => rfl
  | cons u us ih => rw [List.foldl_cons, ih, edges_addNode]

theorem nodup_foldl_addNode (us : List StoreUser) (g : Graph)
    (h : g.nodes.Nodup) : (us.foldl (fun g u => addNode g u.id) g).nodes.Nodup := by
  induction us generalizing g with
  | nil => exact h
  | cons u us ih => exact ih _ (nodup_addNode _ _ h)

theorem nodes_foldl_addEdge (es : List (Nat × Nat)) (g : Graph) (x : Nat) :
    x ∈ (es.foldl (fun g e => addEdge g e.1 e.2) g).nodes ↔
      x ∈ g.nodes ∨ ∃ e ∈ es, e.1 = x ∨ e.2 = x := by
  induction es generalizing g with
  | nil => simp
  | cons e es ih =>
    rw [List.foldl_cons, ih, nodes_addEdge]
    constructor
    · rintro ((hg | rfl | rfl) | he)
      · exact Or.inl hg
      · exact Or.inr ⟨e, List.mem_cons_self .., Or.inl rfl⟩
      · exact Or.inr ⟨e, List.mem_cons_self .., Or.inr rfl⟩
      · rcases he with ⟨f, hf, hx⟩
        exact Or.inr ⟨f, List.mem_cons_of_mem _ hf, hx⟩
    · rintro (hg | ⟨f, hf, hx⟩)
      · exact Or.inl (Or.inl hg)
      · rcases List.mem_cons.mp hf with rfl | hf
        · rcases hx with rfl | rfl
          · exact Or.inl (Or.inr (Or.inl rfl))
          · exact Or.inl (Or.inr (Or.inr rfl))
        · exact Or.inr ⟨f, hf, hx⟩

theorem hasEdge_foldl_addEdge (es : List (Nat × Nat)) (g : Graph) (x y : Nat) :
    hasEdge (es.foldl (fun g e => addEdge g e.1 e.2) g) x y = true ↔
      hasEdge g x y = true ∨ (x, y) ∈ es ∨ (y, x) ∈ es := by
  induction es generalizing g with
  | nil => simp
  | cons e es ih =>
    rw [List.foldl_cons, ih, hasEdge_addEdge]
    constructor
    · rintro ((hg | hp | hp) | he | he)
      · exact Or.inl hg
      · exact Or.inr (Or.inl (by rw [show (x, y) = e from hp]; exact List.mem_cons_self ..))
      · exact Or.inr (Or.inr (by
          obtain ⟨rfl, rfl⟩ : x = e.2 ∧ y = e.1 := by simpa [Prod.ext_iff] using hp
          rw [show (e.1, e.2) = e from rfl]
          exact List.mem_cons_self ..))
      · exact Or.inr (Or.inl (List.mem_cons_of_mem _ he))
      · exact Or.inr (Or.inr (List.mem_cons_of_mem _ he))
    · rintro (hg | he | he)
      · exact Or.inl (Or.inl hg)
      · rcases List.mem_cons.mp he with hp | he
        · exact Or.inl (Or.inr (Or.inl hp))
        · exact Or.inr (Or.inl he)
      · rcases List.mem_cons.mp he with hp | he
        · exact Or.inl (Or.inr (Or.inr (by simpa [Prod.ext_iff, and_comm] using hp)))
        · exact Or.inr (Or.inr he)

theorem nodup_foldl_addEdge (es : List (Nat × Nat)) (g : Graph)
    (h : g.nodes.Nodup) :
    (es.foldl (fun g e => addEdge g e.1 e.2) g).nodes.Nodup := by
  induction es generalizing g with
  | nil => exact h
  | cons e es ih => exact ih _ (nodup_addEdge _ _ _ h)

theorem dupFree_addNode (g : Graph) (u : Nat) (h : edgesDupFree g) :
    edgesDupFree (addNode g u) := by
  unfold edgesDupFree
  rw [edges_addNode]
  exact h

theorem dupFree_addEdge (g : Graph) (a b : Nat) (h : edgesDupFree g) :
    edgesDupFree (addEdge g a b) := by
  rw [addEdge_eq]
  have hE : (addNode (addNode g a) b).edges = g.edges := by
    rw [edges_addNode, edges_addNode]
  have hH : hasEdge (addNode (addNode g a) b) a b = hasEdge g a b := by
    simp [hasEdge, hE]
  split
  · next =>
    unfold edgesDupFree
    rw [hE]
    exact h
  · next hno =>
    rw [hH] at hno
    unfold edgesDupFree
    simp only [hE]
    rw [List.pairwise_append]
    refine ⟨h, List.pairwise_singleton _ _, ?_⟩
    intro e he f hf
    rw [List.mem_singleton] at hf
    subst hf
    intro hc
    apply hno
    rw [hasEdge_iff]
    rcases hc with rfl | hc
    · exact Or.inl he
    · exact Or.inr (hc ▸ he)

theorem dupFree_foldl_addEdge (es : List (Nat × Nat)) (g : Graph)
    (h : edgesDupFree g) :
    edgesDupFree (es.foldl (fun g e => addEdge g e.1 e.2) g) := by
  induction es generalizing g with
  | nil => exact h
  | cons e es ih => exact ih _ (dupFree_addEdge _ _ _ h)

/-! ### `buildGraph` characterization -/

theorem buildGraph_eq (st : Store) :
    buildGraph st = st.friends.foldl (fun g e => addEdge g e.1 e.2)
      (st.users.foldl (fun g u => addNode g u.id) ⟨[], []⟩) := rfl

theorem mem_buildGraph_nodes (st : Store) (x : Nat) :
    x ∈ (buildGraph st).nodes ↔
      (∃ u ∈ st.users, u.id = x) ∨ ∃ e ∈ st.friends, e.1 = x ∨ e.2 = x := by
  rw [buildGraph_eq, nodes_foldl_addEdge, nodes_foldl_addNode]
  simp

theorem edgesClosed_iff (st : Store) :
    edgesClosed st = true ↔
      ∀ e ∈ st.friends, (∃ u ∈ st.users, u.id = e.1) ∧ ∃ u ∈ st.users, u.id = e.2 := by
  simp [edgesClosed, List.all_eq_true, List.any_eq_true]

theorem mem_buildGraph_nodes_wf {st : Store} (hwf : edgesClosed st = true) (x : Nat) :
    x ∈ (buildGraph st).nodes ↔ ∃ u ∈ st.users, u.id = x := by
  rw [mem_buildGraph_nodes]
  constructor
  · rintro (h | ⟨e, he, hx⟩)
    · exact h
    · rcases (edgesClosed_iff st).mp hwf e he with ⟨h1, h2⟩
      rcases hx with rfl | rfl
      · exact h1
      · exact h2
  · exact Or.inl

theorem hasEdge_buildGraph (st : Store) (a b : Nat) :
    hasEdge (buildGraph st) a b = true ↔
      (a, b) ∈ st.friends ∨ (b, a) ∈ st.friends := by
  rw [buildGraph_eq, hasEdge_foldl_addEdge]
  have h0 : hasEdge (st.users.foldl (fun g u => addNode g u.id) ⟨[], []⟩) a b = false := by
    simp [hasEdge, edges_foldl_addNode]
  simp [h0]

theorem nodup_buildGraph (st : Store) : (buildGraph st).nodes.Nodup := by
  rw [buildGraph_eq]
  exact nodup_foldl_addEdge _ _ (nodup_foldl_addNode _ _ List.nodup_nil)

theorem dupFree_buildGraph (st : Store) : edgesDupFree (buildGraph st) := by
  rw [buildGraph_eq]
  refine dupFree_foldl_addEdge _ _ ?_
  unfold edgesDupFree
  rw [edges_foldl_addNode]
  exact List.Pairwise.nil

theorem mem_neighborsSet (g : Graph) (u v : Nat) :
    v ∈ neighborsSet g u ↔ hasEdge g u v = true := by
  rw [hasEdge_iff]
  simp only [neighborsSet, List.mem_toFinset, List.mem_filterMap]
  constructor
  · rintro ⟨e, he, hf⟩
    split_ifs at hf with h1 h2
    · have h2v := Option.some.inj hf
      have he2 : e = (u, v) := by rw [Prod.ext_iff]; exact ⟨h1, h2v⟩
      exact Or.inl (he2 ▸ he)
    · have h1v := Option.some.inj hf
      have he2 : e = (v, u) := by rw [Prod.ext_iff]; exact ⟨h1v, h2⟩
      exact Or.inr (he2 ▸ he)
  · rintro (h | h)
    · exact ⟨(u, v), h, by simp⟩
    · by_cases huv : v = u
      · subst huv
        exact ⟨(v, v), h, by simp⟩
      · exact ⟨(v, u), h, by simp [huv]⟩

theorem get_user_isSome_of_mem {st : Store} {c : Nat}
    (h : ∃ u ∈ st.users, u.id = c) : (get_user st c).isSome = true := by
  rw [get_user, List.find?_isSome]
  rcases h with ⟨u, hu, hc⟩
  exact ⟨u, hu, by simp [hc]⟩

/-! ### Candidate loop characterization -/

theorem mem_candidates (g : Graph) (u c : Nat) :
    c ∈ candidates g u ↔ c ∈ g.nodes ∧ c ∉ neighborsSet g u ∧ c ≠ u := by
  simp [candidates, List.mem_filter]

theorem buildRecs_ok (g : Graph) (st : Store) (u : Nat) (cs : List Nat)
    (hu : u ∈ g.nodes) (hcs : ∀ c ∈ cs, c ∈ g.nodes)
    (hus : ∀ c ∈ cs, (get_user st c).isSome = true) :
    buildRecs g st u cs =
      .ok ((cs.filter (fun c => decide (0 < (simOf g st u c).combined_score))).map
        (entryOf g st u)) := by
  induction cs with
  | nil => rfl
  | cons c cs ih =>
    have hc : c ∈ g.nodes := hcs c (List.mem_cons_self ..)
    have hcalc : calculate_user_similarity g st u c = .ok (simOf g st u c) := by
      simp [calculate_user_similarity, hu, hc]
    have ih2 := ih (fun x hx => hcs x (List.mem_cons_of_mem _ hx))
      (fun x hx => hus x (List.mem_cons_of_mem _ hx))
    by_cases hpos : 0 < (simOf g st u c).combined_score
    · obtain ⟨usr, husr⟩ := Option.isSome_iff_exists.mp (hus c (List.mem_cons_self ..))
      simp [buildRecs, hcalc, hpos, husr, ih2, List.filter_cons]
    · simp [buildRecs, hcalc, hpos, ih2, List.filter_cons]

theorem scoreGe_trans (a b c : RecommendationEntry) (hab : scoreGe a b = true)
    (hbc : scoreGe b c = true) : scoreGe a c = true := by
  simp only [scoreGe, decide_eq_true_eq] at *
  exact le_trans hbc hab

theorem scoreGe_total (a b : RecommendationEntry) :
    (scoreGe a b || scoreGe b a) = true := by
  simp only [scoreGe, Bool.or_eq_true, decide_eq_true_eq]
  exact le_total b.similarity_score a.similarity_score

theorem pyTake_nonneg {limit : Int} (h : 0 ≤ limit) (l : List α) :
    pyTake limit l = l.take limit.toNat := by
  simp [pyTake, h]

theorem pyTake_neg {limit : Int} (h : limit < 0) (l : List α) :
    pyTake limit l = l.take (l.length - limit.natAbs) := by
  rw [pyTake, if_neg (not_le.mpr h)]
  congr 1
  omega

theorem pyTake_nil (limit : Int) : pyTake limit ([] : List α) = [] := by
  unfold pyTake
  split
  · exact List.take_nil
  · exact List.take_nil

theorem pyTake_sublist (limit : Int) (l : List α) : (pyTake limit l).Sublist l := by
  unfold pyTake
  split
  · exact List.take_sublist ..
  · exact List.take_sublist ..

theorem recommend_ok_general (g : Graph) (st : Store) (u : Nat) (limit : Int)
    (hu : u ∈ g.nodes)
    (hus : ∀ c ∈ candidates g u, (get_user st c).isSome = true) :
    get_friend_recommendations g st u limit =
      .ok (pyTake limit ((keptEntries g st u).mergeSort scoreGe)) := by
  have hcs : ∀ c ∈ candidates g u, c ∈ g.nodes :=
    fun c hc => ((mem_candidates _ _ _).mp hc).1
  rw [get_friend_recommendations, if_pos hu,
    buildRecs_ok g st u (candidates g u) hu hcs hus]
  rfl

theorem candidate_user_isSome {st : Store} (hwf : edgesClosed st = true)
    {u : Nat} : ∀ c ∈ candidates (buildGraph st) u, (get_user st c).isSome = true := by
  intro c hc
  exact get_user_isSome_of_mem
    ((mem_buildGraph_nodes_wf hwf c).mp ((mem_candidates _ _ _).mp hc).1)

theorem recommend_ok (st : Store) (u : Nat) (limit : Int)
    (hwf : edgesClosed st = true) (hu : u ∈ (buildGraph st).nodes) :
    get_friend_recommendations (buildGraph st) st u limit =
      .ok (pyTake limit ((keptEntries (buildGraph st) st u).mergeSort scoreGe)) :=
  recommend_ok_general _ st u limit hu (candidate_user_isSome hwf)

/-! ### Store-agreement lemmas: which tables each operation reads -/

theorem get_user_congr {st1 st2 : Store} (h : st1.users = st2.users) (uid : Nat) :
    get_user st1 uid = get_user st2 uid := by
  simp [get_user, h]

theorem get_user_interests_congr {st1 st2 : Store}
    (h : st1.interests = st2.interests) (uid : Nat) :
    get_user_interests st1 uid = get_user_interests st2 uid := by
  simp [get_user_interests, h]

theorem simOf_congr (g : Graph) {st1 st2 : Store}
    (h : st1.interests = st2.interests) (u1 u2 : Nat) :
    simOf g st1 u1 u2 = simOf g st2 u1 u2 := by
  simp [simOf, get_user_interests_congr h]

theorem calculate_congr (g : Graph) {st1 st2 : Store}
    (h : st1.interests = st2.interests) (u1 u2 : Nat) :
    calculate_user_similarity g st1 u1 u2 = calculate_user_similarity g st2 u1 u2 := by
  simp [calculate_user_similarity, simOf_congr g h]

theorem entryOf_congr (g : Graph) {st1 st2 : Store}
    (husers : st1.users = st2.users) (hint : st1.interests = st2.interests)
    (u c : Nat) : entryOf g st1 u c = entryOf g st2 u c := by
  simp [entryOf, simOf_congr g hint, get_user_congr husers]

theorem buildRecs_congr (g : Graph) {st1 st2 : Store}
    (husers : st1.users = st2.users) (hint : st1.interests = st2.interests)
    (u : Nat) (cs : List Nat) : buildRecs g st1 u cs = buildRecs g st2 u cs := by
  induction cs with
  | nil => rfl
  | cons c cs ih =>
    simp only [buildRecs, calculate_congr g hint u c, get_user_congr husers c,
      entryOf_congr g husers hint u c, ih]

theorem recommend_congr (g : Graph) {st1 st2 : Store}
    (husers : st1.users = st2.users) (hint : st1.interests = st2.interests)
    (u : Nat) (limit : Int) :
    get_friend_recommendations g st1 u limit =
      get_friend_recommendations g st2 u limit := by
  simp only [get_friend_recommendations, buildRecs_congr g husers hint u]

/-! ### `create_user`: what it appends, what it leaves untouched -/

theorem foldl_proj_stable {β γ : Type} (proj : Store → γ) (f : Store → β → Store)
    (hf : ∀ s a, proj (f s a) = proj s) (l : List β) (s : Store) :
    proj (l.foldl f s) = proj s := by
  induction l generalizing s with
  | nil => rfl
  | cons a l ih => rw [List.foldl_cons, ih, hf]

theorem insertInterests_users (uid : Nat) (ints : List String) (s : Store) :
    (insertInterests uid s ints).users = s.users := by
  refine foldl_proj_stable Store.users _ ?_ ints s
  intro s i
  dsimp only
  split
  · rfl
  · rfl

theorem insertInterests_friends (uid : Nat) (ints : List String) (s : Store) :
    (insertInterests uid s ints).friends = s.friends := by
  refine foldl_proj_stable Store.friends _ ?_ ints s
  intro s i
  dsimp only
  split
  · rfl
  · rfl

theorem insertInterests_filter {uid x : Nat} (hx : x ≠ uid) (ints : List String)
    (s : Store) :
    (insertInterests uid s ints).interests.filter (fun r => r.1 = x) =
      s.interests.filter (fun r => r.1 = x) := by
  refine foldl_proj_stable (fun s => s.interests.filter (fun r => r.1 = x)) _ ?_ ints s
  intro s i
  dsimp only
  split
  · rfl
  · simp [List.filter_append, Ne.symm hx]

theorem insertFriendPairs_users (uid : Nat) (fids : List Nat) (s : Store) :
    (insertFriendPairs uid s fids).users = s.users := by
  refine foldl_proj_stable Store.users _ ?_ fids s
  intro s fid
  dsimp only
  split
  · split
    · rfl
    · split
      · rfl
      · rfl
  · rfl

theorem insertFriendPairs_interests (uid : Nat) (fids : List Nat) (s : Store) :
    (insertFriendPairs uid s fids).interests = s.interests := by
  refine foldl_proj_stable Store.interests _ ?_ fids s
  intro s fid
  dsimp only
  split
  · split
    · rfl
    · split
      · rfl
      · rfl
  · rfl

theorem foldl_max_le_init (l : List StoreUser) (a : Nat) :
    a ≤ l.foldl (fun m u => max m u.id) a := by
  induction l generalizing a with
  | nil => exact le_refl a
  | cons u l ih => exact le_trans (le_max_left a u.id) (ih _)

theorem mem_le_foldl_max {l : List StoreUser} {u : StoreUser} (h : u ∈ l)
    (a : Nat) : u.id ≤ l.foldl (fun m v => max m v.id) a := by
  induction l generalizing a with
  | nil => cases h
  | cons v l ih =>
    rcases List.mem_cons.mp h with rfl | h
    · exact le_trans (le_max_right a u.id) (foldl_max_le_init l _)
    · exact ih h _

theorem node_le_maxUserId {st : Store} (hwf : edgesClosed st = true) {x : Nat}
    (hx : x ∈ (buildGraph st).nodes) : x ≤ maxUserId st := by
  obtain ⟨u, hu, rfl⟩ := (mem_buildGraph_nodes_wf hwf x).mp hx
  exact mem_le_foldl_max hu 0

/-- `create_user` either rolls back (duplicate email) or appends the user
row with the fresh id `maxUserId st + 1` and touches only rows keyed by
that id. -/
theorem create_user_cases (st : Store) (name email : String)
    (ints : List String) (fids : List Nat) :
    create_user st name email ints fids = (st, none) ∨
    ∃ st2, create_user st name email ints fids = (st2, some (maxUserId st + 1)) ∧
      st2.users = st.users ++ [⟨maxUserId st + 1, name, email⟩] ∧
      ∀ x ≠ maxUserId st + 1,
        st2.interests.filter (fun r => r.1 = x) =
          st.interests.filter (fun r => r.1 = x) := by
  rw [create_user]
  split
  · exact Or.inl rfl
  · right
    refine ⟨_, rfl, ?_, ?_⟩
    · rw [insertFriendPairs_users, insertInterests_users]
    · intro x hx
      rw [insertFriendPairs_interests, insertInterests_filter hx]

theorem maxUserId_create_user (st : Store) (name email : String)
    (ints : List String) (fids : List Nat) :
    maxUserId st ≤ maxUserId (create_user st name email ints fids).1 := by
  rcases create_user_cases st name email ints fids with h | ⟨st2, h, hu, _⟩
  · rw [h]
  · rw [h]
    simp only [maxUserId, hu, List.foldl_append]
    exact foldl_max_le_init _ _

/-- Old user rows and old interest sets survive a `create_user` call:
only rows keyed by the fresh id are added. -/
theorem create_user_stable (st : Store) (name email : String)
    (ints : List String) (fids : List Nat) {x : Nat} (hx : x ≤ maxUserId st) :
    get_user (create_user st name email ints fids).1 x = get_user st x ∧
    get_user_interests (create_user st name email ints fids).1 x =
      get_user_interests st x := by
  rcases create_user_cases st name email ints fids with h | ⟨st2, h, hu, hi⟩
  · rw [h]
    exact ⟨rfl, rfl⟩
  · rw [h]
    have hne : x ≠ maxUserId st + 1 := by omega
    constructor
    · rw [get_user, get_user, hu, List.find?_append]
      have : List.find? (fun u => u.id = x)
          ([⟨maxUserId st + 1, name, email⟩] : List StoreUser) = none := by
        simp [List.find?, hne.symm]
      rw [this, Option.or_none]
    · rw [get_user_interests, get_user_interests, hi x hne]

theorem applyCreates_stable (st : Store)
    (calls : List (String × String × List String × List Nat)) {x : Nat}
    (hx : x ≤ maxUserId st) :
    get_user (applyCreates st calls) x = get_user st x ∧
    get_user_interests (applyCreates st calls) x = get_user_interests st x ∧
    maxUserId st ≤ maxUserId (applyCreates st calls) := by
  induction calls generalizing st with
  | nil => exact ⟨rfl, rfl, le_refl _⟩
  | cons c cs ih =>
    rw [applyCreates]
    have hle := maxUserId_create_user st c.1 c.2.1 c.2.2.1 c.2.2.2
    have hstep := create_user_stable st c.1 c.2.1 c.2.2.1 c.2.2.2 hx
    have hrec := ih ((create_user st c.1 c.2.1 c.2.2.1 c.2.2.2).1)
      (le_trans hx hle)
    exact ⟨hrec.1.trans hstep.1, hrec.2.1.trans hstep.2,
      le_trans hle hrec.2.2⟩

/-! ### Pointwise frame lemmas and result-shape lemmas -/

theorem recommend_unknown (g : Graph) (st : Store) (u : Nat) (limit : Int)
    (h : u ∉ g.nodes) :
    get_friend_recommendations g st u limit = .error (.UnknownNodeError u) := by
  rw [get_friend_recommendations, if_neg h]

theorem mem_keptEntries {g : Graph} {st : Store} {u : Nat}
    {r : RecommendationEntry} (h : r ∈ keptEntries g st u) :
    ∃ c ∈ candidates g u, r = entryOf g st u c ∧
      0 < (simOf g st u c).combined_score ∧ r.user_id = c := by
  simp only [keptEntries, List.mem_map, List.mem_filter, decide_eq_true_eq] at h
  rcases h with ⟨c, ⟨hc, hpos⟩, rfl⟩
  exact ⟨c, hc, rfl, hpos, rfl⟩

theorem calculate_pointwise (g : Graph) {st1 st2 : Store}
    (hint : ∀ x ∈ g.nodes, get_user_interests st1 x = get_user_interests st2 x)
    (u1 u2 : Nat) :
    calculate_user_similarity g st1 u1 u2 = calculate_user_similarity g st2 u1 u2 := by
  by_cases h1 : u1 ∈ g.nodes
  · by_cases h2 : u2 ∈ g.nodes
    · simp [calculate_user_similarity, h1, h2, simOf, hint u1 h1, hint u2 h2]
    · simp [calculate_user_similarity, h1, h2]
  · simp [calculate_user_similarity, h1]

theorem buildRecs_pointwise (g : Graph) {st1 st2 : Store} (u : Nat)
    (huser : ∀ x ∈ g.nodes, get_user st1 x = get_user st2 x)
    (hint : ∀ x ∈ g.nodes, get_user_interests st1 x = get_user_interests st2 x)
    (hu : u ∈ g.nodes) :
    ∀ cs, (∀ c ∈ cs, c ∈ g.nodes) → buildRecs g st1 u cs = buildRecs g st2 u cs := by
  intro cs
  induction cs with
  | nil => intro _; rfl
  | cons c cs ih =>
    intro hcs
    have hc := hcs c (List.mem_cons_self ..)
    have hsim : simOf g st1 u c = simOf g st2 u c := by
      simp [simOf, hint u hu, hint c hc]
    have hcalc : calculate_user_similarity g st1 u c =
        calculate_user_similarity g st2 u c := by
      simp [calculate_user_similarity, hsim]
    have hentry : entryOf g st1 u c = entryOf g st2 u c := by
      simp [entryOf, hsim, huser c hc]
    simp only [buildRecs, hcalc, hentry, huser c hc,
      ih (fun x hx => hcs x (List.mem_cons_of_mem _ hx))]

theorem recommend_pointwise (g : Graph) {st1 st2 : Store}
    (huser : ∀ x ∈ g.nodes, get_user st1 x = get_user st2 x)
    (hint : ∀ x ∈ g.nodes, get_user_interests st1 x = get_user_interests st2 x)
    (u : Nat) (limit : Int) :
    get_friend_recommendations g st1 u limit =
      get_friend_recommendations g st2 u limit := by
  by_cases hu : u ∈ g.nodes
  · simp only [get_friend_recommendations, if_pos hu,
      buildRecs_pointwise g u huser hint hu (candidates g u)
        (fun c hc => ((mem_candidates _ _ _).mp hc).1)]
  · simp only [get_friend_recommendations, if_neg hu]

/-! ### Claim theorems -/

/-- C3: for all finite sets `A` and `B`, `jaccard(A, B)` equals
`|A ∩ B| / |A ∪ B|` whenever `A ∪ B` is non-empty, and equals `0.0`
when both `A` and `B` are empty. -/
theorem C3_jaccard_def {α : Type} [DecidableEq α] (a b : Finset α) :
    ((a ∪ b).Nonempty →
      jaccard_similarity a b = ((a ∩ b).card : ℚ) / ((a ∪ b).card : ℚ)) ∧
    (a = ∅ → b = ∅ → jaccard_similarity a b = 0) := by
  constructor
  · intro h
    apply jaccard_of_not_both_empty
    rintro ⟨rfl, rfl⟩
    simp at h
  · rintro rfl rfl
    simp [jaccard_similarity]

/-- Witness for C3 at `A = {1, 2}`, `B = {2, 3}` and at two empty sets. -/
theorem C3_jaccard_def_witness :
    jaccard_similarity ({1, 2} : Finset Nat) {2, 3} = (1 : ℚ) / 3 ∧
    jaccard_similarity (∅ : Finset Nat) ∅ = 0 := by
  constructor
  · have h := (C3_jaccard_def ({1, 2} : Finset Nat) {2, 3}).1 ⟨2, by decide⟩
    rw [h, show (({1, 2} : Finset Nat) ∩ {2, 3}).card = 1 from by decide,
      show (({1, 2} : Finset Nat) ∪ {2, 3}).card = 3 from by decide]
    norm_num
  · exact (C3_jaccard_def (∅ : Finset Nat) ∅).2 rfl rfl

/-- C7: `jaccard` is symmetric, equals `1.0` on any non-empty set paired
with itself, equals `0.0` on two empty sets, and is bounded in `[0, 1]`. -/
theorem C7_jaccard_algebra {α : Type} [DecidableEq α] :
    (∀ a b : Finset α, jaccard_similarity a b = jaccard_similarity b a) ∧
    (∀ a : Finset α, a.Nonempty → jaccard_similarity a a = 1) ∧
    jaccard_similarity (∅ : Finset α) ∅ = 0 ∧
    ∀ a b : Finset α, 0 ≤ jaccard_similarity a b ∧ jaccard_similarity a b ≤ 1 :=
  ⟨jaccard_comm, fun _ ha => jaccard_self ha, by simp [jaccard_similarity],
   fun a b => ⟨jaccard_nonneg a b, jaccard_le_one a b⟩⟩

/-- Witness for C7 at concrete finite sets of naturals. -/
theorem C7_jaccard_algebra_witness :
    jaccard_similarity ({1, 2} : Finset Nat) {2, 3} =
      jaccard_similarity ({2, 3} : Finset Nat) {1, 2} ∧
    jaccard_similarity ({5} : Finset Nat) {5} = 1 ∧
    0 ≤ jaccard_similarity ({1} : Finset Nat) {2} ∧
    jaccard_similarity ({1} : Finset Nat) {2} ≤ 1 :=
  ⟨C7_jaccard_algebra.1 {1, 2} {2, 3},
   C7_jaccard_algebra.2.1 {5} ⟨5, by decide⟩,
   (C7_jaccard_algebra.2.2.2 {1} {2}).1,
   (C7_jaccard_algebra.2.2.2 {1} {2}).2⟩

/-- C10: for users both present in the snapshot, `similarity` is total
(returns a result, never an error), and the division inside `jaccard` is
guarded: it is only performed when the union is non-empty, in which case
the denominator is non-zero. -/
theorem C10_similarity_total (g : Graph) (st : Store) (u1 u2 : Nat)
    (h1 : u1 ∈ g.nodes) (h2 : u2 ∈ g.nodes) :
    calculate_user_similarity g st u1 u2 = .ok (simOf g st u1 u2) ∧
    ∀ (a b : Finset String), ¬(a = ∅ ∧ b = ∅) →
      jaccard_similarity a b = ((a ∩ b).card : ℚ) / ((a ∪ b).card : ℚ) ∧
      ((a ∪ b).card : ℚ) ≠ 0 := by
  refine ⟨by simp [calculate_user_similarity, h1, h2], ?_⟩
  intro a b h
  exact ⟨jaccard_of_not_both_empty h, ne_of_gt (union_card_pos h)⟩

/-- Witness for C10: two users with no interests and no friends at all. -/
theorem C10_similarity_total_witness :
    calculate_user_similarity
        (buildGraph ⟨[⟨1, "a", "a"⟩, ⟨2, "b", "b"⟩], [], []⟩)
        ⟨[⟨1, "a", "a"⟩, ⟨2, "b", "b"⟩], [], []⟩ 1 2 =
      .ok (simOf (buildGraph ⟨[⟨1, "a", "a"⟩, ⟨2, "b", "b"⟩], [], []⟩)
        ⟨[⟨1, "a", "a"⟩, ⟨2, "b", "b"⟩], [], []⟩ 1 2) :=
  (C10_similarity_total _ _ 1 2 (by decide) (by decide)).1

/-- C4: the `SimilarityResult` for two snapshot users has
`combinedScore = 0.6 × mutualFriendSimilarity + 0.4 × interestSimilarity`
with the two component similarities being the Jaccard similarities of the
interest sets and of the neighbor sets, and `0 ≤ combinedScore ≤ 1`. -/
theorem C4_combined_score (g : Graph) (st : Store) (u1 u2 : Nat)
    (h1 : u1 ∈ g.nodes) (h2 : u2 ∈ g.nodes) :
    ∃ r, calculate_user_similarity g st u1 u2 = .ok r ∧
      r.combined_score = (6 / 10 : ℚ) * r.mutual_friends_similarity +
        (4 / 10 : ℚ) * r.interest_similarity ∧
      r.interest_similarity =
        jaccard_similarity (get_user_interests st u1) (get_user_interests st u2) ∧
      r.mutual_friends_similarity =
        jaccard_similarity (neighborsSet g u1) (neighborsSet g u2) ∧
      0 ≤ r.combined_score ∧ r.combined_score ≤ 1 := by
  refine ⟨simOf g st u1 u2, by simp [calculate_user_similarity, h1, h2],
    rfl, rfl, rfl, ?_, ?_⟩
  · show (0 : ℚ) ≤ (6 / 10 : ℚ) *
        jaccard_similarity (neighborsSet g u1) (neighborsSet g u2) +
      (4 / 10 : ℚ) *
        jaccard_similarity (get_user_interests st u1) (get_user_interests st u2)
    have hm := jaccard_nonneg (neighborsSet g u1) (neighborsSet g u2)
    have hi := jaccard_nonneg (get_user_interests st u1) (get_user_interests st u2)
    linarith
  · show (6 / 10 : ℚ) *
        jaccard_similarity (neighborsSet g u1) (neighborsSet g u2) +
      (4 / 10 : ℚ) *
        jaccard_similarity (get_user_interests st u1) (get_user_interests st u2) ≤ 1
    have hm := jaccard_le_one (neighborsSet g u1) (neighborsSet g u2)
    have hi := jaccard_le_one (get_user_interests st u1) (get_user_interests st u2)
    have hm0 := jaccard_nonneg (neighborsSet g u1) (neighborsSet g u2)
    have hi0 := jaccard_nonneg (get_user_interests st u1) (get_user_interests st u2)
    linarith

/-- Witness for C4: two users sharing the friend `3`. -/
theorem C4_combined_score_witness :
    ∃ r, calculate_user_similarity
        (buildGraph ⟨[⟨1, "a", "a"⟩, ⟨2, "b", "b"⟩, ⟨3, "c", "c"⟩], [],
          [(1, 3), (3, 1), (2, 3), (3, 2)]⟩)
        ⟨[⟨1, "a", "a"⟩, ⟨2, "b", "b"⟩, ⟨3, "c", "c"⟩], [],
          [(1, 3), (3, 1), (2, 3), (3, 2)]⟩ 1 2 = .ok r ∧
      r.combined_score = (6 / 10 : ℚ) * r.mutual_friends_similarity +
        (4 / 10 : ℚ) * r.interest_similarity ∧
      r.interest_similarity =
        jaccard_similarity
          (get_user_interests ⟨[⟨1, "a", "a"⟩, ⟨2, "b", "b"⟩, ⟨3, "c", "c"⟩], [],
            [(1, 3), (3, 1), (2, 3), (3, 2)]⟩ 1)
          (get_user_interests ⟨[⟨1, "a", "a"⟩, ⟨2, "b", "b"⟩, ⟨3, "c", "c"⟩], [],
            [(1, 3), (3, 1), (2, 3), (3, 2)]⟩ 2) ∧
      r.mutual_friends_similarity =
        jaccard_similarity
          (neighborsSet (buildGraph ⟨[⟨1, "a", "a"⟩, ⟨2, "b", "b"⟩, ⟨3, "c", "c"⟩], [],
            [(1, 3), (3, 1), (2, 3), (3, 2)]⟩) 1)
          (neighborsSet (buildGraph ⟨[⟨1, "a", "a"⟩, ⟨2, "b", "b"⟩, ⟨3, "c", "c"⟩], [],
            [(1, 3), (3, 1), (2, 3), (3, 2)]⟩) 2) ∧
      0 ≤ r.combined_score ∧ r.combined_score ≤ 1 :=
  C4_combined_score _ _ 1 2 (by decide) (by decide)

/-- C6: after `build()` on a well-formed store, the node set is exactly
the scanned user ids (without duplicates), an undirected edge is present
exactly when the friend pair appears in the store in either direction,
each distinct pair is stored once, and building from the empty store
yields the empty graph. -/
theorem C6_build_graph (st : Store) (hwf : edgesClosed st = true) :
    (∀ x, x ∈ (buildGraph st).nodes ↔ ∃ u ∈ st.users, u.id = x) ∧
    (buildGraph st).nodes.Nodup ∧
    (∀ a b, hasEdge (buildGraph st) a b = true ↔
      (a, b) ∈ st.friends ∨ (b, a) ∈ st.friends) ∧
    edgesDupFree (buildGraph st) ∧
    buildGraph ⟨[], [], []⟩ = ⟨[], []⟩ :=
  ⟨fun x => mem_buildGraph_nodes_wf hwf x, nodup_buildGraph st,
   hasEdge_buildGraph st, dupFree_buildGraph st, rfl⟩

/-- Witness for C6: a two-user store listing the friend pair in both
directions still yields the edge (and both nodes). -/
theorem C6_build_graph_witness :
    2 ∈ (buildGraph ⟨[⟨1, "a", "a"⟩, ⟨2, "b", "b"⟩], [], [(1, 2), (2, 1)]⟩).nodes ∧
    hasEdge (buildGraph ⟨[⟨1, "a", "a"⟩, ⟨2, "b", "b"⟩], [], [(1, 2), (2, 1)]⟩) 1 2
      = true :=
  ⟨((C6_build_graph _ (by decide)).1 2).mpr ⟨⟨2, "b", "b"⟩, by decide, rfl⟩,
   ((C6_build_graph _ (by decide)).2.2.1 1 2).mpr (Or.inl (by decide))⟩

theorem sorted_mergeSort_score (l : List RecommendationEntry) :
    (l.mergeSort scoreGe).Pairwise
      (fun a b => b.similarity_score ≤ a.similarity_score) :=
  (List.sorted_mergeSort scoreGe_trans scoreGe_total l).imp
    (fun h => of_decide_eq_true h)

/-- C1: for a snapshot user `u` and `limit ≥ 0`, `recommend(u, limit)`
returns exactly the candidates (`nodes − neighbors(u) − {u}`) with
strictly positive combined score, sorted by combined score descending and
truncated to at most `limit` entries; the result never contains `u` or a
neighbor of `u` and its length is at most `limit`. -/
theorem C1_recommendations (st : Store) (u : Nat) (limit : Int)
    (hwf : edgesClosed st = true) (hu : u ∈ (buildGraph st).nodes)
    (hl : 0 ≤ limit) :
    ∃ full res : List RecommendationEntry,
      get_friend_recommendations (buildGraph st) st u limit = .ok res ∧
      full.Perm (keptEntries (buildGraph st) st u) ∧
      full.Pairwise (fun a b => b.similarity_score ≤ a.similarity_score) ∧
      res = full.take limit.toNat ∧
      res.length ≤ limit.toNat ∧
      res.Pairwise (fun a b => b.similarity_score ≤ a.similarity_score) ∧
      (∀ r ∈ res, ∃ c ∈ candidates (buildGraph st) u,
        r = entryOf (buildGraph st) st u c ∧
        0 < (simOf (buildGraph st) st u c).combined_score) ∧
      ∀ r ∈ res, r.user_id ≠ u ∧
        r.user_id ∉ neighborsSet (buildGraph st) u := by
  have hrec := recommend_ok st u limit hwf hu
  set full := (keptEntries (buildGraph st) st u).mergeSort scoreGe with hfull
  have hsorted := sorted_mergeSort_score (keptEntries (buildGraph st) st u)
  have htake : pyTake limit full = full.take limit.toNat := pyTake_nonneg hl full
  have hmemfull : ∀ r ∈ full.take limit.toNat,
      ∃ c ∈ candidates (buildGraph st) u,
        r = entryOf (buildGraph st) st u c ∧
        0 < (simOf (buildGraph st) st u c).combined_score ∧ r.user_id = c := by
    intro r hr
    have hr2 : r ∈ full := (List.take_sublist _ _).mem hr
    have hr3 : r ∈ keptEntries (buildGraph st) st u :=
      (List.mergeSort_perm (keptEntries (buildGraph st) st u) scoreGe).mem_iff.mp hr2
    exact mem_keptEntries hr3
  refine ⟨full, full.take limit.toNat, by rw [hrec, htake],
    List.mergeSort_perm _ _, hsorted, rfl, ?_, ?_, ?_, ?_⟩
  · rw [List.length_take]
    exact min_le_left ..
  · exact hsorted.sublist (List.take_sublist _ _)
  · intro r hr
    obtain ⟨c, hc, hre, hpos, _⟩ := hmemfull r hr
    exact ⟨c, hc, hre, hpos⟩
  · intro r hr
    obtain ⟨c, hc, _, _, hid⟩ := hmemfull r hr
    obtain ⟨_, hnb, hne⟩ := (mem_candidates _ _ _).mp hc
    rw [hid]
    exact ⟨hne, hnb⟩

/-- Witness for C1: the three-user interest scenario store. -/
theorem C1_recommendations_witness :
    ∃ full res : List RecommendationEntry,
      get_friend_recommendations (buildGraph stInterests) stInterests 1 5 =
        .ok res ∧
      full.Perm (keptEntries (buildGraph stInterests) stInterests 1) ∧
      full.Pairwise (fun a b => b.similarity_score ≤ a.similarity_score) ∧
      res = full.take (5 : Int).toNat ∧
      res.length ≤ (5 : Int).toNat ∧
      res.Pairwise (fun a b => b.similarity_score ≤ a.similarity_score) ∧
      (∀ r ∈ res, ∃ c ∈ candidates (buildGraph stInterests) 1,
        r = entryOf (buildGraph stInterests) stInterests 1 c ∧
        0 < (simOf (buildGraph stInterests) stInterests 1 c).combined_score) ∧
      ∀ r ∈ res, r.user_id ≠ 1 ∧
        r.user_id ∉ neighborsSet (buildGraph stInterests) 1 :=
  C1_recommendations stInterests 1 5 (by decide) (by decide) (by decide)

/-- C9: for a snapshot user `u` and a negative `limit`,
`get_friend_recommendations` does not fail: the slice `[:limit]` drops the
last `|limit|` elements of the sorted positively-scored candidate list
(Python slice semantics), so with more than `|limit|` positive candidates
the result is non-empty. -/
theorem C9_negative_limit (st : Store) (u : Nat) (limit : Int)
    (hwf : edgesClosed st = true) (hu : u ∈ (buildGraph st).nodes)
    (hl : limit < 0) :
    ∃ full res : List RecommendationEntry,
      get_friend_recommendations (buildGraph st) st u limit = .ok res ∧
      full.Perm (keptEntries (buildGraph st) st u) ∧
      full.Pairwise (fun a b => b.similarity_score ≤ a.similarity_score) ∧
      res = full.take (full.length - limit.natAbs) ∧
      res.length = full.length - limit.natAbs ∧
      full.length = (keptEntries (buildGraph st) st u).length := by
  have hrec := recommend_ok st u limit hwf hu
  set full := (keptEntries (buildGraph st) st u).mergeSort scoreGe with hfull
  have htake : pyTake limit full = full.take (full.length - limit.natAbs) :=
    pyTake_neg hl full
  refine ⟨full, full.take (full.length - limit.natAbs), by rw [hrec, htake],
    List.mergeSort_perm _ _, sorted_mergeSort_score _, rfl, ?_,
    List.length_mergeSort _⟩
  rw [List.length_take]
  omega

/-- Witness for C9: with limit `-1` and two positive candidates, user 1
gets exactly one recommendation. -/
theorem C9_negative_limit_witness :
    ∃ full res : List RecommendationEntry,
      get_friend_recommendations (buildGraph stInterests) stInterests 1 (-1) =
        .ok res ∧
      full.Perm (keptEntries (buildGraph stInterests) stInterests 1) ∧
      full.Pairwise (fun a b => b.similarity_score ≤ a.similarity_score) ∧
      res = full.take (full.length - (-1 : Int).natAbs) ∧
      res.length = full.length - (-1 : Int).natAbs ∧
      full.length =
        (keptEntries (buildGraph stInterests) stInterests 1).length :=
  C9_negative_limit stInterests 1 (-1) (by decide) (by decide) (by decide)

/-- C5: `recommend` fails with `UnknownNodeError` exactly when the queried
user is absent from the snapshot; `similarity` fails with
`UnknownNodeError` exactly when either user is absent; a present user with
no positively-scored candidate gets an empty list, not an error. -/
theorem C5_unknown_node (st : Store) (hwf : edgesClosed st = true) :
    (∀ u limit, u ∉ (buildGraph st).nodes →
      get_friend_recommendations (buildGraph st) st u limit =
        .error (.UnknownNodeError u)) ∧
    (∀ u limit, u ∈ (buildGraph st).nodes →
      ∃ res, get_friend_recommendations (buildGraph st) st u limit = .ok res) ∧
    (∀ u limit, u ∈ (buildGraph st).nodes →
      (∀ c ∈ candidates (buildGraph st) u,
        (simOf (buildGraph st) st u c).combined_score ≤ 0) →
      get_friend_recommendations (buildGraph st) st u limit = .ok []) ∧
    (∀ u1 u2,
      (∃ e, calculate_user_similarity (buildGraph st) st u1 u2 = .error e) ↔
      (u1 ∉ (buildGraph st).nodes ∨ u2 ∉ (buildGraph st).nodes)) ∧
    (∀ u1 u2 e, calculate_user_similarity (buildGraph st) st u1 u2 = .error e →
      ∃ w, e = .UnknownNodeError w ∧ w ∉ (buildGraph st).nodes) := by
  refine ⟨?_, ?_, ?_, ?_, ?_⟩
  · intro u limit hu
    exact recommend_unknown _ _ _ _ hu
  · intro u limit hu
    exact ⟨_, recommend_ok st u limit hwf hu⟩
  · intro u limit hu hz
    rw [recommend_ok st u limit hwf hu]
    have hkept : keptEntries (buildGraph st) st u = [] := by
      rw [keptEntries, List.map_eq_nil_iff, List.filter_eq_nil_iff]
      intro c hc
      simp only [decide_eq_true_eq, not_lt]
      exact hz c hc
    rw [hkept, List.mergeSort_nil, pyTake_nil]
  · intro u1 u2
    constructor
    · rintro ⟨e, he⟩
      by_contra hcon
      push_neg at hcon
      rw [calculate_user_similarity, if_pos hcon.1, if_pos hcon.2] at he
      cases he
    · intro h
      by_cases h1 : u1 ∈ (buildGraph st).nodes
      · have h2 : u2 ∉ (buildGraph st).nodes := by tauto
        exact ⟨_, by rw [calculate_user_similarity, if_pos h1, if_neg h2]⟩
      · exact ⟨_, by rw [calculate_user_similarity, if_neg h1]⟩
  · intro u1 u2 e he
    by_cases h1 : u1 ∈ (buildGraph st).nodes
    · by_cases h2 : u2 ∈ (buildGraph st).nodes
      · rw [calculate_user_similarity, if_pos h1, if_pos h2] at he
        cases he
      · rw [calculate_user_similarity, if_pos h1, if_neg h2] at he
        exact ⟨u2, (Except.error.inj he).symm, h2⟩
    · rw [calculate_user_similarity, if_neg h1] at he
      exact ⟨u1, (Except.error.inj he).symm, h1⟩

/-- Witness for C5: querying the unknown id 99 errors; the known id 1
with a zero-scored candidate yields the empty list. -/
theorem C5_unknown_node_witness :
    get_friend_recommendations (buildGraph stTwo) stTwo 99 5 =
      .error (.UnknownNodeError 99) ∧
    get_friend_recommendations (buildGraph stTwo) stTwo 1 5 = .ok [] := by
  constructor
  · exact (C5_unknown_node stTwo (by decide)).1 99 5 (by decide)
  · refine (C5_unknown_node stTwo (by decide)).2.2.1 1 5 (by decide) ?_
    intro c hc
    have hc2 : c = 2 := by
      rw [show candidates (buildGraph stTwo) 1 = [2] from by decide] at hc
      simpa using hc
    subst hc2
    have hg : buildGraph stTwo = ⟨[1, 2], []⟩ := by decide
    have hsim : (simOf (buildGraph stTwo) stTwo 1 2).combined_score = 0 := by
      show (6 / 10 : ℚ) *
          jaccard_similarity (neighborsSet (buildGraph stTwo) 1)
            (neighborsSet (buildGraph stTwo) 2) +
        (4 / 10 : ℚ) *
          jaccard_similarity (get_user_interests stTwo 1)
            (get_user_interests stTwo 2) = 0
      rw [hg, show get_user_interests stTwo 1 = ∅ from rfl,
        show get_user_interests stTwo 2 = ∅ from rfl,
        show neighborsSet ⟨[1, 2], []⟩ 1 = ∅ from rfl,
        show neighborsSet ⟨[1, 2], []⟩ 2 = ∅ from rfl]
      simp [jaccard_similarity]
    rw [hsim]

/-- C2 counterexample: the claim that `similarity` depends only on the
snapshot is false on the code.  `similarity` re-reads each user's interest
set from the backing store on every call (`get_user_interests` is a store
query, not a snapshot lookup), so two runs from the same snapshot whose
stores differ in interest rows written after the build return different
results: with the snapshot built from `stTwo`, the run against `stTwo`
scores the pair (1, 2) at `0`, while the run against `stTwoLater` (same
store after two post-build interest inserts) scores it at `2/5`. -/
theorem C2_counterexample :
    calculate_user_similarity (buildGraph stTwo) stTwo 1 2 ≠
      calculate_user_similarity (buildGraph stTwo) stTwoLater 1 2 := by
  have hg : buildGraph stTwo = ⟨[1, 2], []⟩ := by decide
  have e1 : calculate_user_similarity (buildGraph stTwo) stTwo 1 2 =
      .ok (simOf (buildGraph stTwo) stTwo 1 2) := by
    rw [calculate_user_similarity, if_pos (by decide), if_pos (by decide)]
  have e2 : calculate_user_similarity (buildGraph stTwo) stTwoLater 1 2 =
      .ok (simOf (buildGraph stTwo) stTwoLater 1 2) := by
    rw [calculate_user_similarity, if_pos (by decide), if_pos (by decide)]
  have s1 : (simOf (buildGraph stTwo) stTwo 1 2).combined_score = 0 := by
    show (6 / 10 : ℚ) *
        jaccard_similarity (neighborsSet (buildGraph stTwo) 1)
          (neighborsSet (buildGraph stTwo) 2) +
      (4 / 10 : ℚ) *
        jaccard_similarity (get_user_interests stTwo 1)
          (get_user_interests stTwo 2) = 0
    rw [hg, show get_user_interests stTwo 1 = ∅ from rfl,
      show get_user_interests stTwo 2 = ∅ from rfl,
      show neighborsSet ⟨[1, 2], []⟩ 1 = ∅ from rfl,
      show neighborsSet ⟨[1, 2], []⟩ 2 = ∅ from rfl]
    simp [jaccard_similarity]
  have s2 : (simOf (buildGraph stTwo) stTwoLater 1 2).combined_score = 2 / 5 := by
    show (6 / 10 : ℚ) *
        jaccard_similarity (neighborsSet (buildGraph stTwo) 1)
          (neighborsSet (buildGraph stTwo) 2) +
      (4 / 10 : ℚ) *
        jaccard_similarity (get_user_interests stTwoLater 1)
          (get_user_interests stTwoLater 2) = 2 / 5
    rw [hg, show get_user_interests stTwoLater 1 = {"t"} from by decide,
      show get_user_interests stTwoLater 2 = {"t"} from by decide,
      show neighborsSet ⟨[1, 2], []⟩ 1 = ∅ from rfl,
      show neighborsSet ⟨[1, 2], []⟩ 2 = ∅ from rfl,
      jaccard_self (show ({"t"} : Finset String).Nonempty from ⟨"t", by decide⟩)]
    rw [show jaccard_similarity (∅ : Finset Nat) ∅ = 0 from by
      simp [jaccard_similarity]]
    norm_num
  intro h
  rw [e1, e2] at h
  have hc := congrArg SimilarityResult.combined_score (Except.ok.inj h)
  rw [s1, s2] at hc
  norm_num at hc

/-- C2 amended: after the build, the graph structure (nodes, neighbors)
is read only from the snapshot, but `similarity` re-reads interest sets
from the backing store at call time and `recommend` additionally re-reads
user rows (name/contact); two runs from the same snapshot agree whenever
their stores agree on the `users` and `interests` tables — in particular
post-build writes to the `friends` table alone never change any result —
while post-build writes to interests or user rows can change results. -/
theorem C2_amended_store_reads (g : Graph) (st1 st2 : Store)
    (husers : st1.users = st2.users) (hint : st1.interests = st2.interests) :
    (∀ u1 u2, calculate_user_similarity g st1 u1 u2 =
      calculate_user_similarity g st2 u1 u2) ∧
    ∀ u limit, get_friend_recommendations g st1 u limit =
      get_friend_recommendations g st2 u limit :=
  ⟨calculate_congr g hint, fun u limit => recommend_congr g husers hint u limit⟩

/-- Witness for the amended C2: a post-build friend-edge write leaves
both `similarity` and `recommend` results unchanged. -/
theorem C2_amended_store_reads_witness :
    calculate_user_similarity (buildGraph stTwo) stTwo 1 2 =
      calculate_user_similarity (buildGraph stTwo) stTwoFriendLater 1 2 ∧
    get_friend_recommendations (buildGraph stTwo) stTwo 1 5 =
      get_friend_recommendations (buildGraph stTwo) stTwoFriendLater 1 5 :=
  ⟨(C2_amended_store_reads (buildGraph stTwo) stTwo stTwoFriendLater rfl rfl).1 1 2,
   (C2_amended_store_reads (buildGraph stTwo) stTwo stTwoFriendLater rfl rfl).2 1 5⟩

/-- C8: `create_user` writes only to the backing store, never to an
existing engine's snapshot: after any sequence of `create_user` calls,
`similarity` and `recommend` against the old snapshot answer exactly as
before the calls; a freshly created user id is not a node of the old
snapshot, querying `recommend` for it on the old snapshot fails with the
unknown-node error, and it never appears in any recommendation list
computed against the old snapshot. -/
theorem C8_create_user_frame (st : Store)
    (calls : List (String × String × List String × List Nat))
    (hwf : edgesClosed st = true) :
    (∀ u1 u2, calculate_user_similarity (buildGraph st)
        (applyCreates st calls) u1 u2 =
      calculate_user_similarity (buildGraph st) st u1 u2) ∧
    (∀ u limit, get_friend_recommendations (buildGraph st)
        (applyCreates st calls) u limit =
      get_friend_recommendations (buildGraph st) st u limit) ∧
    ∀ name email ints fids st2 uid,
      create_user (applyCreates st calls) name email ints fids =
        (st2, some uid) →
      uid ∉ (buildGraph st).nodes ∧
      (∀ limit, get_friend_recommendations (buildGraph st) st2 uid limit =
        .error (.UnknownNodeError uid)) ∧
      ∀ u limit res,
        get_friend_recommendations (buildGraph st) st2 u limit = .ok res →
        ∀ r ∈ res, r.user_id ≠ uid := by
  have hnode_le : ∀ x ∈ (buildGraph st).nodes, x ≤ maxUserId st :=
    fun x hx => node_le_maxUserId hwf hx
  have huser1 : ∀ x ∈ (buildGraph st).nodes,
      get_user (applyCreates st calls) x = get_user st x :=
    fun x hx => (applyCreates_stable st calls (hnode_le x hx)).1
  have hint1 : ∀ x ∈ (buildGraph st).nodes,
      get_user_interests (applyCreates st calls) x = get_user_interests st x :=
    fun x hx => (applyCreates_stable st calls (hnode_le x hx)).2.1
  have hmax : maxUserId st ≤ maxUserId (applyCreates st calls) :=
    (applyCreates_stable st calls (Nat.zero_le (maxUserId st))).2.2
  refine ⟨calculate_pointwise _ hint1,
    fun u limit => recommend_pointwise _ huser1 hint1 u limit, ?_⟩
  intro name email ints fids st2 uid hcreate
  have huid : uid = maxUserId (applyCreates st calls) + 1 := by
    rcases create_user_cases (applyCreates st calls) name email ints fids with
      hcase | ⟨st2', heq, _, _⟩
    · rw [hcase] at hcreate
      exact absurd (congrArg Prod.snd hcreate) (by simp)
    · have hboth := heq.symm.trans hcreate
      exact (Option.some.inj (congrArg Prod.snd hboth)).symm
  have hfst : (create_user (applyCreates st calls) name email ints fids).1 = st2 := by
    rw [hcreate]
  have huid_not : uid ∉ (buildGraph st).nodes := by
    intro hmem
    have := hnode_le uid hmem
    omega
  refine ⟨huid_not, fun limit => recommend_unknown _ _ _ _ huid_not, ?_⟩
  have hstable2 : ∀ x, x ≤ maxUserId st →
      get_user st2 x = get_user st x ∧
      get_user_interests st2 x = get_user_interests st x := by
    intro x hx
    have h1 := create_user_stable (applyCreates st calls) name email ints fids
      (le_trans hx hmax)
    rw [hfst] at h1
    exact ⟨h1.1.trans (applyCreates_stable st calls hx).1,
      h1.2.trans (applyCreates_stable st calls hx).2.1⟩
  intro u limit res hres r hr
  have huser2 : ∀ x ∈ (buildGraph st).nodes, get_user st2 x = get_user st x :=
    fun x hx => (hstable2 x (hnode_le x hx)).1
  have hint2 : ∀ x ∈ (buildGraph st).nodes,
      get_user_interests st2 x = get_user_interests st x :=
    fun x hx => (hstable2 x (hnode_le x hx)).2
  rw [recommend_pointwise (buildGraph st) huser2 hint2 u limit] at hres
  by_cases hu : u ∈ (buildGraph st).nodes
  · rw [recommend_ok st u limit hwf hu] at hres
    obtain rfl := (Except.ok.inj hres).symm
    have hr2 : r ∈ (keptEntries (buildGraph st) st u).mergeSort scoreGe :=
      (pyTake_sublist _ _).mem hr
    have hr3 : r ∈ keptEntries (buildGraph st) st u :=
      (List.mergeSort_perm _ _).mem_iff.mp hr2
    obtain ⟨c, hc, _, _, hid⟩ := mem_keptEntries hr3
    have hcn : c ∈ (buildGraph st).nodes := ((mem_candidates _ _ _).mp hc).1
    have hcle := hnode_le c hcn
    intro hcontra
    rw [hid] at hcontra
    omega
  · rw [recommend_unknown _ _ _ _ hu] at hres
    cases hres

/-- Witness for C8: creating a user (with an interest and a friend edge
to user 1) after the build leaves the old snapshot's answers unchanged. -/
theorem C8_create_user_frame_witness :
    calculate_user_similarity (buildGraph stTwo)
      (applyCreates stTwo [("c", "c", ["x"], [1])]) 1 2 =
    calculate_user_similarity (buildGraph stTwo) stTwo 1 2 :=
  (C8_create_user_frame stTwo [("c", "c", ["x"], [1])] (by decide)).1 1 2

end FriendApp
